import Mathlib

/-!
Verification of `mongoalchemy/update_expression.py` (MongoAlchemy's atomic
update-expression builder) against its natural-language specification.

The Python module is shallowly embedded below.  Python dictionaries become
association lists with first-occurrence lookup and replace-or-append
assignment (exactly the observable `d[k] = v` / `k in d` / `d[k]` behaviour
for dictionaries built through this API).  A Python method that raises an
exception leaves `self` with every mutation performed before the raise, so
each fallible builder method returns `Except (UpdateError × UpdateExpression)
UpdateExpression`: the error case carries the builder state at the moment of
the raise.
-/

namespace MongoAlchemy

/-- Primitive document values handled by the builder: the sentinels `True`,
`1`, `-1` and ordinary ints/strings used as field payloads.  Encoded values
are opaque to the builder, so the same type serves for raw and encoded
values. -/
inductive Value where
  | vbool : Bool → Value
  | vint : Int → Value
  | vstr : String → Value
  deriving DecidableEq, Repr

/-- An entry stored under `update_data[op][fieldPath]`: either a single
(encoded or sentinel) value, or — for the multivalue operators `$pushAll` /
`$pullAll` — a sequence of values. -/
inductive Stored where
  | val : Value → Stored
  | seq : List Value → Stored
  deriving DecidableEq, Repr

/-- Modelled from the spec: the field/type-descriptor system
(`mongoalchemy.fields`, not part of the analysed source) is an external
collaborator exposing, per field type, its class name (used in error
messages), its set of valid modifiers (`valid_modifiers`), a value encoder
(`wrap`, spec: `encode`) and, for container types, an element encoder
(spec: `elementEncoder`; the source reaches it as `item_type.wrap` and as
`child_type().wrap`, both denoting the per-item encoder of the element
type).  Encoders may fail (`mongoalchemy.fields.BadValueException`), hence
`Option`. -/
structure FieldType where
  name : String
  valid_modifiers : List String
  wrap : Value → Option Value
  item_wrap : Value → Option Value

/-- Modelled from the spec: a query field (`QueryField` from
`mongoalchemy.query_expression`, not part of the analysed source) exposes
`get_name()` — the dotted field path — and `get_type()` — its field-type
descriptor. -/
structure QField where
  name : String
  ftype : FieldType

/-- Embeds `QueryField.get_name()`. -/
def QField.get_name (f : QField) : String := f.name

/-- Embeds `QueryField.get_type()`. -/
def QField.get_type (f : QField) : FieldType := f.ftype

/-- First-occurrence association-list lookup: the observable behaviour of
`d[k]` / `k in d` on a Python dict. -/
def lookupKey {α : Type} : List (String × α) → String → Option α
  | [], _ => none
  | (k0, v0) :: rest, k => if k0 = k then some v0 else lookupKey rest k

/-- Replace-or-append association-list assignment: the observable behaviour
of `d[k] = v` on a Python dict (updates the existing slot in place, appends
a new binding at the end otherwise). -/
def setKey {α : Type} : List (String × α) → String → α → List (String × α)
  | [], k, v => [(k, v)]
  | (k0, v0) :: rest, k, v =>
      if k0 = k then (k, v) :: rest else (k0, v0) :: setKey rest k v

/-- Inner field-path-to-value mapping stored under one operator key. -/
abbrev FieldMap := List (String × Stored)

/-- The accumulated `update_data` mapping: operator name to field map. -/
abbrev UpdateData := List (String × FieldMap)

/-- Embeds the guard `if op not in self.update_data:
self.update_data[op] = {}` shared by all four `_atomic_*` helpers. -/
def ensureOp (d : UpdateData) (op : String) : UpdateData :=
  match lookupKey d op with
  | none => setKey d op []
  | some _ => d

/-- Embeds the assignment `self.update_data[op][name] = v`.  Every caller
runs `ensureOp` first, so the `none` branch is unreachable from the
builder's code paths; it is made total by behaving like a fresh inner
dict. -/
def setField (d : UpdateData) (op : String) (name : String) (v : Stored) : UpdateData :=
  match lookupKey d op with
  | some m => setKey d op (setKey m name v)
  | none => setKey d op [(name, v)]

/-- Embeds the error taxonomy: `InvalidModifierException` carries the field
type's class name and the rejected operator (its message is
`'Invalid modifier for %s field: %s' % (field.__class__.__name__, op)`);
`conflictingModifier` embeds `ConflictingModifierException`, which the
source declares but never raises on any code path; `badValue` embeds
`BadValueException` escaping from a field encoder (raised by the external
`mongoalchemy.fields` collaborator). -/
inductive UpdateError where
  | invalidModifier : String → String → UpdateError
  | conflictingModifier : UpdateError
  | badValue : UpdateError
  deriving DecidableEq, Repr

/-- Embeds the state of `UpdateExpression`: `__init__` stores the query
(the target selector, opaque here), an empty `update_data` dict and the two
flags `__upsert = False`, `__multi = False`.  The session collaborator is
external and appears only in `execute`. -/
structure UpdateExpression where
  query : String
  update_data : UpdateData
  upsert_flag : Bool
  multi_flag : Bool
  deriving DecidableEq, Repr

/-- Embeds `UpdateExpression.__init__(query)`. -/
def UpdateExpression.init (query : String) : UpdateExpression :=
  { query := query, update_data := [], upsert_flag := false, multi_flag := false }

/-- Embeds `upsert()`: sets `__upsert = True` and returns `self`. -/
def UpdateExpression.upsert (u : UpdateExpression) : UpdateExpression :=
  { u with upsert_flag := true }

/-- Embeds `multi()`: sets `__multi = True` and returns `self`. -/
def UpdateExpression.multi (u : UpdateExpression) : UpdateExpression :=
  { u with multi_flag := true }

/-- Embeds `get_upsert()`. -/
def UpdateExpression.get_upsert (u : UpdateExpression) : Bool := u.upsert_flag

/-- Embeds `get_multi()`. -/
def UpdateExpression.get_multi (u : UpdateExpression) : Bool := u.multi_flag

/-- Embeds `_atomic_op(op, qfield, value)`: validate the modifier against
the field type, ensure the operator slot, then store the wrapped value under
the field path (in Python the right-hand side `wrap(value)` is evaluated
before the subscript assignment, so an encoder failure escapes after the
slot was ensured but before any field-path entry is written). -/
def UpdateExpression.atomic_op (u : UpdateExpression) (op : String) (qfield : QField)
    (value : Value) : Except (UpdateError × UpdateExpression) UpdateExpression :=
  if op ∉ qfield.get_type.valid_modifiers then
    .error (.invalidModifier qfield.get_type.name op, u)
  else
    let d := ensureOp u.update_data op
    match qfield.get_type.wrap value with
    | some w => .ok { u with update_data := setField d op qfield.get_name (.val w) }
    | none => .error (.badValue, { u with update_data := d })

/-- Embeds `_atomic_list_op(op, qfield, value)`: like `_atomic_op` but the
value is wrapped by the element encoder (`child_type().wrap`). -/
def UpdateExpression.atomic_list_op (u : UpdateExpression) (op : String) (qfield : QField)
    (value : Value) : Except (UpdateError × UpdateExpression) UpdateExpression :=
  if op ∉ qfield.get_type.valid_modifiers then
    .error (.invalidModifier qfield.get_type.name op, u)
  else
    let d := ensureOp u.update_data op
    match qfield.get_type.item_wrap value with
    | some w => .ok { u with update_data := setField d op qfield.get_name (.val w) }
    | none => .error (.badValue, { u with update_data := d })

/-- Embeds the `wrapped` loop of `_atomic_list_op_multivalue`: wrap each
value in order with the element encoder, aborting on the first failure. -/
def wrapEach (w : Value → Option Value) : List Value → Option (List Value)
  | [] => some []
  | v :: rest =>
      match w v, wrapEach w rest with
      | some x, some xs => some (x :: xs)
      | _, _ => none

/-- Embeds `_atomic_list_op_multivalue(op, qfield, *value)`: validate, build
the `wrapped` list item by item (this runs before the operator slot is
ensured, so an encoder failure leaves `update_data` untouched) — and then,
exactly as the source does, store the **raw** argument tuple `value`: the
`wrapped` list is computed and discarded. -/
def UpdateExpression.atomic_list_op_multivalue (u : UpdateExpression) (op : String)
    (qfield : QField) (value : List Value) :
    Except (UpdateError × UpdateExpression) UpdateExpression :=
  if op ∉ qfield.get_type.valid_modifiers then
    .error (.invalidModifier qfield.get_type.name op, u)
  else
    match wrapEach qfield.get_type.item_wrap value with
    | some _wrapped =>
        let d := ensureOp u.update_data op
        .ok { u with update_data := setField d op qfield.get_name (.seq value) }
    | none => .error (.badValue, u)

/-- Embeds `_atomic_generic_op(op, qfield, value)`: validate, then store the
given value unmodified — no encoder is consulted. -/
def UpdateExpression.atomic_generic_op (u : UpdateExpression) (op : String) (qfield : QField)
    (value : Stored) : Except (UpdateError × UpdateExpression) UpdateExpression :=
  if op ∉ qfield.get_type.valid_modifiers then
    .error (.invalidModifier qfield.get_type.name op, u)
  else
    let d := ensureOp u.update_data op
    .ok { u with update_data := setField d op qfield.get_name value }

/-- Embeds `set(qfield, value)`. -/
def UpdateExpression.set (u : UpdateExpression) (qfield : QField) (value : Value) :
    Except (UpdateError × UpdateExpression) UpdateExpression :=
  u.atomic_op "$set" qfield value

/-- Embeds `unset(qfield)`: stores the fixed sentinel `True`. -/
def UpdateExpression.unset (u : UpdateExpression) (qfield : QField) :
    Except (UpdateError × UpdateExpression) UpdateExpression :=
  u.atomic_generic_op "$unset" qfield (.val (.vbool true))

/-- Embeds `inc(qfield, value)` (in the source `value` defaults to `1`). -/
def UpdateExpression.inc (u : UpdateExpression) (qfield : QField) (value : Value) :
    Except (UpdateError × UpdateExpression) UpdateExpression :=
  u.atomic_op "$inc" qfield value

/-- Embeds `append(qfield, value)` (the `$push` operation). -/
def UpdateExpression.append (u : UpdateExpression) (qfield : QField) (value : Value) :
    Except (UpdateError × UpdateExpression) UpdateExpression :=
  u.atomic_list_op "$push" qfield value

/-- Embeds `extend(qfield, *value)` (the `$pushAll` operation). -/
def UpdateExpression.extend (u : UpdateExpression) (qfield : QField) (value : List Value) :
    Except (UpdateError × UpdateExpression) UpdateExpression :=
  u.atomic_list_op_multivalue "$pushAll" qfield value

/-- Embeds `remove(qfield, value)` (the `$pull` operation). -/
def UpdateExpression.remove (u : UpdateExpression) (qfield : QField) (value : Value) :
    Except (UpdateError × UpdateExpression) UpdateExpression :=
  u.atomic_list_op "$pull" qfield value

/-- Embeds `remove_all(qfield, *value)` (the `$pullAll` operation). -/
def UpdateExpression.remove_all (u : UpdateExpression) (qfield : QField) (value : List Value) :
    Except (UpdateError × UpdateExpression) UpdateExpression :=
  u.atomic_list_op_multivalue "$pullAll" qfield value

/-- Embeds `add_to_set(qfield, value)` (the `$addToSet` operation). -/
def UpdateExpression.add_to_set (u : UpdateExpression) (qfield : QField) (value : Value) :
    Except (UpdateError × UpdateExpression) UpdateExpression :=
  u.atomic_list_op "$addToSet" qfield value

/-- Embeds `pop_last(qfield)`: stores the fixed sentinel `1` under `$pop`. -/
def UpdateExpression.pop_last (u : UpdateExpression) (qfield : QField) :
    Except (UpdateError × UpdateExpression) UpdateExpression :=
  u.atomic_generic_op "$pop" qfield (.val (.vint 1))

/-- Embeds `pop_first(qfield)`: stores the fixed sentinel `-1` under `$pop`. -/
def UpdateExpression.pop_first (u : UpdateExpression) (qfield : QField) :
    Except (UpdateError × UpdateExpression) UpdateExpression :=
  u.atomic_generic_op "$pop" qfield (.val (.vint (-1)))

/-- Modelled from the spec: the command handed to the external session
collaborator by `execute()` — per §4.4 the target selector, the accumulated
operations mapping, and the `(upsert, multi)` flag pair (the source passes
`self` to `session.execute_update`, which reads exactly these through
`query`, `update_data`, `get_upsert()` and `get_multi()`). -/
structure ExecutedUpdate where
  query : String
  update_data : UpdateData
  upsert : Bool
  multi : Bool
  deriving DecidableEq, Repr

/-- Embeds `execute()`: hands the accumulated command to the session.  The
source neither marks the builder finalized nor clears any state. -/
def UpdateExpression.execute (u : UpdateExpression) : ExecutedUpdate :=
  { query := u.query, update_data := u.update_data,
    upsert := u.get_upsert, multi := u.get_multi }

/-- Convenience view of `d[op][fieldPath]` used in theorem statements. -/
def lookupEntry (d : UpdateData) (op fieldPath : String) : Option Stored :=
  match lookupKey d op with
  | some m => lookupKey m fieldPath
  | none => none

/-- Convenience view of `update_data[op][fieldPath]` used in theorem
statements. -/
def UpdateExpression.lookupField (u : UpdateExpression) (op fieldPath : String) :
    Option Stored :=
  lookupEntry u.update_data op fieldPath

/-- A mapping whose keys are pairwise distinct — the invariant every Python
dict satisfies by construction. -/
def keysNodup {α : Type} (l : List (String × α)) : Prop :=
  (l.map Prod.fst).Nodup

instance {α : Type} (l : List (String × α)) : Decidable (keysNodup l) := by
  unfold keysNodup; infer_instance

/-- An integer field descriptor as in the spec's concrete scenario: numeric
fields permit `$set`, `$unset` and `$inc`; its encoder is the identity. -/
def intFieldType : FieldType :=
  { name := "IntField", valid_modifiers := ["$set", "$unset", "$inc"],
    wrap := fun v => some v, item_wrap := fun v => some v }

/-- The numeric field `count` of the spec's concrete scenario. -/
def countField : QField := { name := "count", ftype := intFieldType }

/-- An element encoder that visibly changes its argument (increments ints),
used to distinguish raw from encoded stored values. -/
def encInc : Value → Option Value
  | .vint n => some (.vint (n + 1))
  | v => some v

/-- A list field descriptor as in the spec's concrete scenario, with the
visibly-changing element encoder `encInc`. -/
def listFieldType : FieldType :=
  { name := "ListField",
    valid_modifiers :=
      ["$push", "$pushAll", "$pull", "$pullAll", "$addToSet", "$pop", "$set", "$unset"],
    wrap := fun v => some v, item_wrap := encInc }

/-- The list field `tags` of the spec's concrete scenario. -/
def tagsField : QField := { name := "tags", ftype := listFieldType }

/-- A field descriptor whose encoders always fail, exercising the
`BadValueException` paths. -/
def failFieldType : FieldType :=
  { name := "FailField",
    valid_modifiers := ["$set", "$inc", "$push", "$pull", "$addToSet"],
    wrap := fun _ => none, item_wrap := fun _ => none }

/-- A field whose type is `failFieldType`. -/
def failField : QField := { name := "frail", ftype := failFieldType }

theorem lookup_setKey_self {α : Type} (l : List (String × α)) (k : String) (v : α) :
    lookupKey (setKey l k v) k = some v := by
  induction l with
  | nil => simp [setKey, lookupKey]
  | cons p rest ih =>
      obtain ⟨k0, v0⟩ := p
      by_cases h : k0 = k
      · simp [setKey, h, lookupKey]
      · simp [setKey, h, lookupKey, ih]

theorem lookup_setKey_ne {α : Type} (l : List (String × α)) (k k1 : String) (v : α)
    (h : k1 ≠ k) : lookupKey (setKey l k v) k1 = lookupKey l k1 := by
  induction l with
  | nil => simp [setKey, lookupKey, Ne.symm h]
  | cons p rest ih =>
      obtain ⟨k0, v0⟩ := p
      by_cases h0 : k0 = k
      · subst h0
        simp [setKey, lookupKey, Ne.symm h]
      · simp only [setKey, h0, if_false]
        by_cases h1 : k0 = k1
        · subst h1
          simp [lookupKey]
        · simp [lookupKey, h1, ih]

theorem keys_setKey {α : Type} (l : List (String × α)) (k : String) (v : α) :
    (setKey l k v).map Prod.fst =
      if k ∈ l.map Prod.fst then l.map Prod.fst else l.map Prod.fst ++ [k] := by
  induction l with
  | nil => simp [setKey]
  | cons p rest ih =>
      obtain ⟨k0, v0⟩ := p
      by_cases h : k0 = k
      · subst h
        simp [setKey]
      · simp only [setKey, h, if_false, List.map_cons, ih, List.mem_cons]
        have hne : ¬k = k0 := fun hk => h hk.symm
        by_cases hm : k ∈ rest.map Prod.fst
        · simp [hm, hne]
        · simp [hm, hne]

theorem keysNodup_setKey {α : Type} (l : List (String × α)) (k : String) (v : α)
    (h : keysNodup l) : keysNodup (setKey l k v) := by
  unfold keysNodup at h ⊢
  rw [keys_setKey]
  by_cases hm : k ∈ l.map Prod.fst
  · simpa [hm] using h
  · simp only [hm, if_false]
    rw [List.nodup_append]
    refine ⟨h, List.nodup_singleton k, fun a ha hk => ?_⟩
    have hak : a = k := by simpa using hk
    exact hm (hak ▸ ha)

theorem filter_setKey {α : Type} (l : List (String × α)) (k : String) (v : α)
    (h : keysNodup l) :
    (setKey l k v).filter (fun p => p.1 == k) = [(k, v)] := by
  induction l with
  | nil => simp [setKey, List.filter]
  | cons p rest ih =>
      obtain ⟨k0, v0⟩ := p
      unfold keysNodup at h
      simp only [List.map_cons, List.nodup_cons] at h
      by_cases hk : k0 = k
      · subst hk
        have hnone : rest.filter (fun p => p.1 == k0) = [] := by
          rw [List.filter_eq_nil_iff]
          intro a ha hba
          have ha1 : a.1 = k0 := by simpa using hba
          exact h.1 (ha1 ▸ List.mem_map_of_mem Prod.fst ha)
        simp [setKey, List.filter, hnone]
      · have := ih h.2
        simp [setKey, hk, List.filter, this]

theorem lookupKey_setField_self (d : UpdateData) (op n : String) (v : Stored) :
    lookupKey (setField d op n v) op =
      some (setKey ((lookupKey d op).getD []) n v) := by
  unfold setField
  cases h : lookupKey d op with
  | none => simp [lookup_setKey_self, setKey]
  | some m => simp [lookup_setKey_self]

theorem lookupKey_ensureOp_self (d : UpdateData) (op : String) :
    lookupKey (ensureOp d op) op = some ((lookupKey d op).getD []) := by
  unfold ensureOp
  cases h : lookupKey d op with
  | none => simp [lookup_setKey_self]
  | some m => simp [h]

theorem lookupEntry_store_self (d : UpdateData) (op n : String) (v : Stored) :
    lookupEntry (setField (ensureOp d op) op n v) op n = some v := by
  unfold lookupEntry
  rw [lookupKey_setField_self]
  exact lookup_setKey_self _ n v

theorem lookupKey_ensureOp_ne (d : UpdateData) (op op1 : String) (h : op1 ≠ op) :
    lookupKey (ensureOp d op) op1 = lookupKey d op1 := by
  unfold ensureOp
  cases hd : lookupKey d op with
  | none => exact lookup_setKey_ne d op op1 [] h
  | some m => rfl

theorem lookupKey_setField_ne (d : UpdateData) (op op1 n : String) (v : Stored)
    (h : op1 ≠ op) : lookupKey (setField d op n v) op1 = lookupKey d op1 := by
  unfold setField
  cases hd : lookupKey d op with
  | none => exact lookup_setKey_ne d op op1 _ h
  | some m => exact lookup_setKey_ne d op op1 _ h

theorem lookupEntry_ensureOp (d : UpdateData) (op op1 n : String) :
    lookupEntry (ensureOp d op) op1 n = lookupEntry d op1 n := by
  by_cases h : op1 = op
  · subst h
    unfold lookupEntry
    rw [lookupKey_ensureOp_self]
    cases hd : lookupKey d op1 with
    | none => simp [lookupKey]
    | some m => simp
  · unfold lookupEntry
    rw [lookupKey_ensureOp_ne d op op1 h]

/-- C1: the spec requires that once one operator targets a field path, a
call with a different operator on the same path fail with
`ConflictingModifierError`, leaving the accumulated operations untouched.
The source performs no such check — `ConflictingModifierException` is
declared but never raised on any code path — so on the failing input below
`set(count, 5)` followed by `inc(count, 1)` succeeds and leaves **both**
`$set.count` and `$inc.count` in `update_data`. -/
theorem C1_conflicting_modifiers_not_rejected :
    ((UpdateExpression.init "q").set countField (Value.vint 5)).bind
        (fun u1 => u1.inc countField (Value.vint 1)) =
      Except.ok { query := "q",
                  update_data := [("$set", [("count", Stored.val (Value.vint 5))]),
                                  ("$inc", [("count", Stored.val (Value.vint 1))])],
                  upsert_flag := false, multi_flag := false } ∧
    ({ query := "q",
       update_data := [("$set", [("count", Stored.val (Value.vint 5))]),
                       ("$inc", [("count", Stored.val (Value.vint 1))])],
       upsert_flag := false, multi_flag := false } : UpdateExpression).lookupField
        "$set" "count" = some (Stored.val (Value.vint 5)) ∧
    ({ query := "q",
       update_data := [("$set", [("count", Stored.val (Value.vint 5))]),
                       ("$inc", [("count", Stored.val (Value.vint 1))])],
       upsert_flag := false, multi_flag := false } : UpdateExpression).lookupField
        "$inc" "count" = some (Stored.val (Value.vint 1)) :=
  ⟨rfl, rfl, rfl⟩

/-- C2: the spec requires `pushAll(f, a, b, c)` (`extend` in the source) to
store the three **individually encoded** values `[encode(a), encode(b),
encode(c)]`.  The source's `_atomic_list_op_multivalue` builds exactly that
`wrapped` list — and then discards it, storing the raw argument tuple
instead: with an element encoder that increments ints, `extend(tags, 1, 2,
3)` stores the raw `[1, 2, 3]` although the encoded sequence is `[2, 3,
4]`; likewise `remove_all` (`$pullAll`). -/
theorem C2_multivalue_stores_raw_not_encoded :
    (UpdateExpression.init "q").extend tagsField
        [Value.vint 1, Value.vint 2, Value.vint 3] =
      Except.ok { query := "q",
                  update_data :=
                    [("$pushAll",
                      [("tags", Stored.seq [Value.vint 1, Value.vint 2, Value.vint 3])])],
                  upsert_flag := false, multi_flag := false } ∧
    (UpdateExpression.init "q").remove_all tagsField
        [Value.vint 1, Value.vint 2, Value.vint 3] =
      Except.ok { query := "q",
                  update_data :=
                    [("$pullAll",
                      [("tags", Stored.seq [Value.vint 1, Value.vint 2, Value.vint 3])])],
                  upsert_flag := false, multi_flag := false } ∧
    wrapEach listFieldType.item_wrap [Value.vint 1, Value.vint 2, Value.vint 3] =
      some [Value.vint 2, Value.vint 3, Value.vint 4] ∧
    Stored.seq [Value.vint 1, Value.vint 2, Value.vint 3] ≠
      Stored.seq [Value.vint 2, Value.vint 3, Value.vint 4] := by
  refine ⟨rfl, rfl, rfl, by decide⟩

/-- C3: every accumulator entry point validates the operator against the
field type's declared `valid_modifiers` set before doing anything else: when
the operator is not a member, each of the four `_atomic_*` helpers raises
`InvalidModifierException` carrying the field type's name and the operator;
a call can only succeed when the operator is a member (so no operator is
valid by default — an empty set rejects everything); and membership is also
sufficient for success, given for the encoding entry points that the
relevant encoder succeeds. -/
theorem C3_modifier_validation (u : UpdateExpression) (op : String) (f : QField)
    (v : Value) (vs : List Value) (s : Stored) :
    (op ∉ f.get_type.valid_modifiers →
        u.atomic_op op f v = .error (.invalidModifier f.get_type.name op, u) ∧
        u.atomic_list_op op f v = .error (.invalidModifier f.get_type.name op, u) ∧
        u.atomic_list_op_multivalue op f vs =
          .error (.invalidModifier f.get_type.name op, u) ∧
        u.atomic_generic_op op f s = .error (.invalidModifier f.get_type.name op, u)) ∧
    ((u.atomic_op op f v).isOk = true → op ∈ f.get_type.valid_modifiers) ∧
    ((u.atomic_list_op op f v).isOk = true → op ∈ f.get_type.valid_modifiers) ∧
    ((u.atomic_list_op_multivalue op f vs).isOk = true →
        op ∈ f.get_type.valid_modifiers) ∧
    ((u.atomic_generic_op op f s).isOk = true → op ∈ f.get_type.valid_modifiers) ∧
    (op ∈ f.get_type.valid_modifiers → (u.atomic_generic_op op f s).isOk = true) ∧
    (op ∈ f.get_type.valid_modifiers → (f.get_type.wrap v).isSome = true →
        (u.atomic_op op f v).isOk = true) ∧
    (op ∈ f.get_type.valid_modifiers → (f.get_type.item_wrap v).isSome = true →
        (u.atomic_list_op op f v).isOk = true) ∧
    (op ∈ f.get_type.valid_modifiers → (wrapEach f.get_type.item_wrap vs).isSome = true →
        (u.atomic_list_op_multivalue op f vs).isOk = true) := by
  refine ⟨fun h => ?_, fun h => ?_, fun h => ?_, fun h => ?_, fun h => ?_,
    fun h => ?_, fun h hw => ?_, fun h hw => ?_, fun h hw => ?_⟩
  · exact ⟨by simp [UpdateExpression.atomic_op, h],
      by simp [UpdateExpression.atomic_list_op, h],
      by simp [UpdateExpression.atomic_list_op_multivalue, h],
      by simp [UpdateExpression.atomic_generic_op, h]⟩
  · by_contra hmem
    simp [UpdateExpression.atomic_op, hmem, Except.isOk, Except.toBool] at h
  · by_contra hmem
    simp [UpdateExpression.atomic_list_op, hmem, Except.isOk, Except.toBool] at h
  · by_contra hmem
    simp [UpdateExpression.atomic_list_op_multivalue, hmem, Except.isOk, Except.toBool] at h
  · by_contra hmem
    simp [UpdateExpression.atomic_generic_op, hmem, Except.isOk, Except.toBool] at h
  · simp [UpdateExpression.atomic_generic_op, not_not_intro h, Except.isOk, Except.toBool]
  · obtain ⟨w, hw2⟩ := Option.isSome_iff_exists.mp hw
    simp [UpdateExpression.atomic_op, not_not_intro h, hw2, Except.isOk, Except.toBool]
  · obtain ⟨w, hw2⟩ := Option.isSome_iff_exists.mp hw
    simp [UpdateExpression.atomic_list_op, not_not_intro h, hw2, Except.isOk, Except.toBool]
  · obtain ⟨w, hw2⟩ := Option.isSome_iff_exists.mp hw
    simp [UpdateExpression.atomic_list_op_multivalue, not_not_intro h, hw2, Except.isOk, Except.toBool]

/-- Witness for C3 at concrete inputs: on `IntField` (valid modifiers
`$set`, `$unset`, `$inc`), `$push` is rejected with the typed error and
`$inc` succeeds. -/
theorem C3_modifier_validation_witness :
    "$push" ∉ countField.get_type.valid_modifiers ∧
    (UpdateExpression.init "q").atomic_list_op "$push" countField (Value.vint 1) =
      .error (.invalidModifier "IntField" "$push", UpdateExpression.init "q") ∧
    "$inc" ∈ countField.get_type.valid_modifiers ∧
    ((UpdateExpression.init "q").atomic_op "$inc" countField (Value.vint 1)).isOk = true := by
  have h := C3_modifier_validation (UpdateExpression.init "q") "$push" countField
    (Value.vint 1) [] (Stored.val (Value.vbool true))
  have h2 := C3_modifier_validation (UpdateExpression.init "q") "$inc" countField
    (Value.vint 1) [] (Stored.val (Value.vbool true))
  refine ⟨by decide, (h.1 (by decide)).2.1, by decide,
    h2.2.2.2.2.2.2.1 (by decide) (by decide)⟩

/-- C4: a call whose operator is not in the target field type's valid set
raises `InvalidModifierException` and the error carries the builder exactly
as it was — the rejected pair never enters the accumulated command and the
flags are untouched (the raise happens before any mutation in all four
helpers). -/
theorem C4_invalid_modifier_leaves_state_unchanged (u : UpdateExpression) (op : String)
    (f : QField) (v : Value) (vs : List Value) (s : Stored)
    (h : op ∉ f.get_type.valid_modifiers) :
    u.atomic_op op f v = .error (.invalidModifier f.get_type.name op, u) ∧
    u.atomic_list_op op f v = .error (.invalidModifier f.get_type.name op, u) ∧
    u.atomic_list_op_multivalue op f vs = .error (.invalidModifier f.get_type.name op, u) ∧
    u.atomic_generic_op op f s = .error (.invalidModifier f.get_type.name op, u) :=
  ⟨by simp [UpdateExpression.atomic_op, h],
   by simp [UpdateExpression.atomic_list_op, h],
   by simp [UpdateExpression.atomic_list_op_multivalue, h],
   by simp [UpdateExpression.atomic_generic_op, h]⟩

/-- Witness for C4: the spec's concrete scenario — on a fresh builder over
the numeric field `count` with valid modifiers `$set`, `$unset`, `$inc`,
`push(count, 1)` (`append` in the source) fails with
`InvalidModifierException('IntField', '$push')` and the carried builder
state still has empty `update_data`. -/
theorem C4_invalid_modifier_leaves_state_unchanged_witness :
    "$push" ∉ countField.get_type.valid_modifiers ∧
    (UpdateExpression.init "q").append countField (Value.vint 1) =
      .error (.invalidModifier "IntField" "$push", UpdateExpression.init "q") ∧
    (UpdateExpression.init "q").update_data = [] := by
  refine ⟨by decide, ?_, rfl⟩
  exact (C4_invalid_modifier_leaves_state_unchanged (UpdateExpression.init "q") "$push"
    countField (Value.vint 1) [] (Stored.val (Value.vbool true)) (by decide)).2.1

/-- C7: `upsert()` and `multi()` each set only their own flag to `true`,
leave the accumulated operations, the target selector and the other flag
untouched, commute with each other, are idempotent, and both flags start
`false` on a fresh builder. -/
theorem C7_upsert_multi_flags (u : UpdateExpression) (q : String) :
    u.upsert.update_data = u.update_data ∧ u.multi.update_data = u.update_data ∧
    u.upsert.query = u.query ∧ u.multi.query = u.query ∧
    u.upsert.upsert_flag = true ∧ u.multi.multi_flag = true ∧
    u.upsert.multi_flag = u.multi_flag ∧ u.multi.upsert_flag = u.upsert_flag ∧
    u.upsert.upsert = u.upsert ∧ u.multi.multi = u.multi ∧
    u.upsert.multi = u.multi.upsert ∧
    (UpdateExpression.init q).upsert_flag = false ∧
    (UpdateExpression.init q).multi_flag = false :=
  ⟨rfl, rfl, rfl, rfl, rfl, rfl, rfl, rfl, rfl, rfl, rfl, rfl, rfl⟩

/-- C5: repeated `set` on the same field path overwrites: after
`set(f, v1)` then `set(f, v2)`, the `$set` map holds exactly one entry for
`f`'s path, its value is the encoding of `v2`, and no trace of `v1`
remains (last-write-wins). -/
theorem C5_set_last_write_wins (u : UpdateExpression) (f : QField) (v1 v2 w1 w2 : Value)
    (hnd : ∀ m, lookupKey u.update_data "$set" = some m → keysNodup m)
    (hm : "$set" ∈ f.get_type.valid_modifiers)
    (h1 : f.get_type.wrap v1 = some w1) (h2 : f.get_type.wrap v2 = some w2) :
    ∃ u1 u2, u.set f v1 = .ok u1 ∧ u1.set f v2 = .ok u2 ∧
      ∃ m2, lookupKey u2.update_data "$set" = some m2 ∧
        m2.filter (fun p => p.1 == f.get_name) = [(f.get_name, Stored.val w2)] ∧
        lookupKey m2 f.get_name = some (Stored.val w2) := by
  have e1 : u.set f v1 = .ok { u with update_data := (setField
      (ensureOp u.update_data "$set") "$set" f.get_name (.val w1)) } := by
    unfold UpdateExpression.set UpdateExpression.atomic_op
    rw [if_neg (not_not_intro hm)]
    simp [h1]
  have e2 : UpdateExpression.set { u with update_data := (setField
        (ensureOp u.update_data "$set") "$set" f.get_name (.val w1)) } f v2 =
      .ok { u with update_data := (setField
        (ensureOp (setField (ensureOp u.update_data "$set") "$set" f.get_name
          (.val w1)) "$set") "$set" f.get_name (.val w2)) } := by
    unfold UpdateExpression.set UpdateExpression.atomic_op
    rw [if_neg (not_not_intro hm)]
    simp [h2]
  have hl1 : lookupKey (setField (ensureOp u.update_data "$set") "$set" f.get_name
      (Stored.val w1)) "$set" =
      some (setKey ((lookupKey u.update_data "$set").getD []) f.get_name
        (Stored.val w1)) := by
    rw [lookupKey_setField_self, lookupKey_ensureOp_self]
    simp
  have hl2 : lookupKey (setField (ensureOp (setField (ensureOp u.update_data "$set")
      "$set" f.get_name (Stored.val w1)) "$set") "$set" f.get_name (Stored.val w2))
      "$set" =
      some (setKey (setKey ((lookupKey u.update_data "$set").getD []) f.get_name
        (Stored.val w1)) f.get_name (Stored.val w2)) := by
    rw [lookupKey_setField_self, lookupKey_ensureOp_self, hl1]
    simp
  have hnd0 : keysNodup ((lookupKey u.update_data "$set").getD []) := by
    cases h0 : lookupKey u.update_data "$set" with
    | none => simp [keysNodup]
    | some m => simpa using hnd m h0
  have hnd1 : keysNodup (setKey ((lookupKey u.update_data "$set").getD []) f.get_name
      (Stored.val w1)) := keysNodup_setKey _ _ _ hnd0
  refine ⟨_, _, e1, e2, _, hl2, filter_setKey _ _ _ hnd1, lookup_setKey_self _ _ _⟩

/-- Witness for C5 at concrete inputs: on a fresh builder over `count`,
`set(count, 1)` then `set(count, 2)` leaves the single entry
`$set.count = 2`. -/
theorem C5_set_last_write_wins_witness :
    ∃ u1 u2, (UpdateExpression.init "q").set countField (Value.vint 1) = .ok u1 ∧
      u1.set countField (Value.vint 2) = .ok u2 ∧
      ∃ m2, lookupKey u2.update_data "$set" = some m2 ∧
        m2.filter (fun p => p.1 == countField.get_name) =
          [(countField.get_name, Stored.val (Value.vint 2))] ∧
        lookupKey m2 countField.get_name = some (Stored.val (Value.vint 2)) :=
  C5_set_last_write_wins (UpdateExpression.init "q") countField (Value.vint 1)
    (Value.vint 2) (Value.vint 1) (Value.vint 2)
    (by intro m hm; simp [lookupKey] at hm) (by decide) rfl rfl

/-- C6: `unset` stores the fixed truthy sentinel `True` under `$unset`,
`pop_last` stores `1` and `pop_first` stores `-1` under `$pop`; all three
run through `_atomic_generic_op`, which never consults the field's value
encoders: two field descriptors agreeing on path, type name and valid
modifiers but with arbitrarily different encoders produce identical
results. -/
theorem C6_sentinel_operations (u : UpdateExpression) (f g : QField)
    (hname : g.name = f.name) (htype : g.ftype.name = f.ftype.name)
    (hvm : g.ftype.valid_modifiers = f.ftype.valid_modifiers) :
    ("$unset" ∈ f.get_type.valid_modifiers →
        ∃ u1, u.unset f = .ok u1 ∧
          u1.lookupField "$unset" f.get_name = some (.val (.vbool true))) ∧
    ("$pop" ∈ f.get_type.valid_modifiers →
        (∃ u1, u.pop_last f = .ok u1 ∧
            u1.lookupField "$pop" f.get_name = some (.val (.vint 1))) ∧
        (∃ u1, u.pop_first f = .ok u1 ∧
            u1.lookupField "$pop" f.get_name = some (.val (.vint (-1))))) ∧
    (u.unset g = u.unset f ∧ u.pop_last g = u.pop_last f ∧
      u.pop_first g = u.pop_first f) := by
  have gen : ∀ (op : String) (s : Stored), op ∈ f.get_type.valid_modifiers →
      u.atomic_generic_op op f s = .ok { u with update_data := (setField
        (ensureOp u.update_data op) op f.get_name s) } := by
    intro op s hop
    unfold UpdateExpression.atomic_generic_op
    rw [if_neg (not_not_intro hop)]
  have indep : ∀ (op : String) (s : Stored),
      u.atomic_generic_op op g s = u.atomic_generic_op op f s := by
    intro op s
    unfold UpdateExpression.atomic_generic_op
    simp only [QField.get_type, QField.get_name, hname, htype, hvm]
  refine ⟨fun h => ⟨_, gen _ _ h, lookupEntry_store_self _ _ _ _⟩,
    fun h => ⟨⟨_, gen _ _ h, lookupEntry_store_self _ _ _ _⟩,
      ⟨_, gen _ _ h, lookupEntry_store_self _ _ _ _⟩⟩,
    indep _ _, indep _ _, indep _ _⟩

/-- Witness for C6 at concrete inputs: on the list field `tags` (whose
valid modifiers include `$unset` and `$pop`), `unset` stores `True` and the
two pops store `1` and `-1`; and against a twin of `tags` with different
encoders the three calls agree. -/
theorem C6_sentinel_operations_witness :
    ("$unset" ∈ tagsField.get_type.valid_modifiers ∧
      ∃ u1, (UpdateExpression.init "q").unset tagsField = .ok u1 ∧
        u1.lookupField "$unset" tagsField.get_name = some (.val (.vbool true))) ∧
    ("$pop" ∈ tagsField.get_type.valid_modifiers ∧
      ∃ u1, (UpdateExpression.init "q").pop_last tagsField = .ok u1 ∧
        u1.lookupField "$pop" tagsField.get_name = some (.val (.vint 1))) := by
  have h := C6_sentinel_operations (UpdateExpression.init "q") tagsField
    { name := "tags", ftype := ({ name := "ListField", valid_modifiers := (tagsField.ftype.valid_modifiers), wrap := fun _ => none, item_wrap := fun _ => none } : FieldType) }
    rfl rfl rfl
  exact ⟨⟨by decide, h.1 (by decide)⟩, ⟨by decide, (h.2.1 (by decide)).1⟩⟩

/-- C8: the variadic operations accept zero values: `extend` (that is,
`$pushAll`) and `remove_all` (`$pullAll`) called with an empty value list
succeed and store an empty sequence under the field path. -/
theorem C8_variadic_zero_values (u : UpdateExpression) (f : QField)
    (hpush : "$pushAll" ∈ f.get_type.valid_modifiers)
    (hpull : "$pullAll" ∈ f.get_type.valid_modifiers) :
    (∃ u1, u.extend f [] = .ok u1 ∧
        u1.lookupField "$pushAll" f.get_name = some (.seq [])) ∧
    (∃ u1, u.remove_all f [] = .ok u1 ∧
        u1.lookupField "$pullAll" f.get_name = some (.seq [])) := by
  have gen : ∀ (op : String), op ∈ f.get_type.valid_modifiers →
      u.atomic_list_op_multivalue op f [] = .ok { u with update_data := (setField
        (ensureOp u.update_data op) op f.get_name (.seq [])) } := by
    intro op hop
    unfold UpdateExpression.atomic_list_op_multivalue
    rw [if_neg (not_not_intro hop)]
    rfl
  exact ⟨⟨_, gen _ hpush, lookupEntry_store_self _ _ _ _⟩,
    ⟨_, gen _ hpull, lookupEntry_store_self _ _ _ _⟩⟩

/-- Witness for C8 at concrete inputs: `extend(tags)` and
`remove_all(tags)` with no values store empty sequences. -/
theorem C8_variadic_zero_values_witness :
    (∃ u1, (UpdateExpression.init "q").extend tagsField [] = .ok u1 ∧
        u1.lookupField "$pushAll" tagsField.get_name = some (.seq [])) ∧
    (∃ u1, (UpdateExpression.init "q").remove_all tagsField [] = .ok u1 ∧
        u1.lookupField "$pullAll" tagsField.get_name = some (.seq [])) :=
  C8_variadic_zero_values (UpdateExpression.init "q") tagsField (by decide) (by decide)

/-- C9 counterexample: nothing in the source marks a builder finalized —
`execute` only hands the command to the session.  On the concrete builder
below, a `set` call made after `execute()` is **not** rejected: it succeeds
and adds `$set.count` to the accumulated operations, refuting the claim
that a builder is consumed by `execute` and further operator calls are
rejected. -/
theorem C9_set_after_execute_still_mutates :
    (UpdateExpression.init "q").execute =
      { query := "q", update_data := [], upsert := false, multi := false } ∧
    (UpdateExpression.init "q").set countField (Value.vint 5) =
      .ok { query := "q",
            update_data := [("$set", [("count", Stored.val (Value.vint 5))])],
            upsert_flag := false, multi_flag := false } ∧
    ({ query := "q",
       update_data := [("$set", [("count", Stored.val (Value.vint 5))])],
       upsert_flag := false, multi_flag := false } : UpdateExpression).update_data ≠
      (UpdateExpression.init "q").update_data :=
  ⟨rfl, rfl, by decide⟩

/-- C9 (amended): `execute()` hands the session exactly the target
selector, the accumulated operations and the `(upsert, multi)` flag pair,
but does not finalize the builder: the builder state is left untouched and
a subsequent operator call (here `set`) still succeeds and mutates the
accumulated operations. -/
theorem C9_execute_hands_off_without_finalizing (u : UpdateExpression) (f : QField)
    (v w : Value) (hm : "$set" ∈ f.get_type.valid_modifiers)
    (hw : f.get_type.wrap v = some w) :
    u.execute = { query := u.query, update_data := u.update_data,
                  upsert := u.upsert_flag, multi := u.multi_flag } ∧
    ∃ u1, u.set f v = .ok u1 ∧ u1.lookupField "$set" f.get_name = some (.val w) := by
  have e1 : u.set f v = .ok { u with update_data := (setField
      (ensureOp u.update_data "$set") "$set" f.get_name (.val w)) } := by
    unfold UpdateExpression.set UpdateExpression.atomic_op
    rw [if_neg (not_not_intro hm)]
    simp [hw]
  exact ⟨rfl, _, e1, lookupEntry_store_self _ _ _ _⟩

/-- Witness for C9's amended claim at concrete inputs. -/
theorem C9_execute_hands_off_without_finalizing_witness :
    (UpdateExpression.init "q").execute =
      { query := "q", update_data := [], upsert := false, multi := false } ∧
    ∃ u1, (UpdateExpression.init "q").set countField (Value.vint 7) = .ok u1 ∧
      u1.lookupField "$set" countField.get_name = some (.val (.vint 7)) := by
  have h := C9_execute_hands_off_without_finalizing (UpdateExpression.init "q")
    countField (Value.vint 7) (Value.vint 7) (by decide) rfl
  exact ⟨h.1, h.2⟩

/-- C10: for the single-value operator entry points (`set`/`inc` through
`_atomic_op`; `append`/`remove`/`add_to_set` through `_atomic_list_op`), an
encoder failure escapes after the operator slot was ensured but before any
field-path entry is written: the error carries a builder whose
`update_data` is `ensureOp` of the original — no entry `op1.n` observable
through lookup has changed, and flags and selector are untouched — yet when
the operator key was previously absent, an empty mapping under it has been
created and is left behind, so the state is not fully restored. -/
theorem C10_encoder_failure_leaves_empty_slot (u : UpdateExpression) (op : String)
    (f : QField) (v : Value) (hm : op ∈ f.get_type.valid_modifiers) :
    (u.set f v = u.atomic_op "$set" f v ∧ u.inc f v = u.atomic_op "$inc" f v ∧
     u.append f v = u.atomic_list_op "$push" f v ∧
     u.remove f v = u.atomic_list_op "$pull" f v ∧
     u.add_to_set f v = u.atomic_list_op "$addToSet" f v) ∧
    (f.get_type.wrap v = none →
      u.atomic_op op f v =
        .error (.badValue, { u with update_data := ensureOp u.update_data op })) ∧
    (f.get_type.item_wrap v = none →
      u.atomic_list_op op f v =
        .error (.badValue, { u with update_data := ensureOp u.update_data op })) ∧
    (∀ op1 n, lookupEntry (ensureOp u.update_data op) op1 n =
        lookupEntry u.update_data op1 n) ∧
    (lookupKey u.update_data op = none →
        lookupKey (ensureOp u.update_data op) op = some []) := by
  refine ⟨⟨rfl, rfl, rfl, rfl, rfl⟩, fun hw => ?_, fun hw => ?_,
    fun op1 n => lookupEntry_ensureOp _ _ _ _, fun h0 => ?_⟩
  · unfold UpdateExpression.atomic_op
    rw [if_neg (not_not_intro hm)]
    simp [hw]
  · unfold UpdateExpression.atomic_list_op
    rw [if_neg (not_not_intro hm)]
    simp [hw]
  · unfold ensureOp
    rw [h0]
    exact lookup_setKey_self _ _ _

/-- Witness for C10 at concrete inputs: on a field whose encoder always
fails, `set` on a fresh builder raises the bad-value error and leaves
behind `update_data = {'$set': {}}`. -/
theorem C10_encoder_failure_leaves_empty_slot_witness :
    "$set" ∈ failField.get_type.valid_modifiers ∧
    failFieldType.wrap (Value.vint 1) = none ∧
    (UpdateExpression.init "q").atomic_op "$set" failField (Value.vint 1) =
      .error (.badValue, { query := "q", update_data := [("$set", [])],
                           upsert_flag := false, multi_flag := false }) := by
  have h := (C10_encoder_failure_leaves_empty_slot (UpdateExpression.init "q") "$set"
    failField (Value.vint 1) (by decide)).2.1 rfl
  exact ⟨by decide, rfl, h⟩

end MongoAlchemy
